import Mathlib

set_option maxRecDepth 10000

/-!
Verification of the Pository Debian package repository service.

This file shallow-embeds the core of the service — the apt `Packages`
generator (`src/routes/packages.ts`), the storage index operations
(`src/services/storage.ts`), the Debian package validator and path
sanitizer (`src/services/debian-validator.ts`), the OIDC authorization
policy (`src/services/oidc-scope.ts`) and the API-key permission check
(`src/services/api-keys.ts`) — and proves properties of the embedding.

Conventions: JavaScript strings become `String`, optional record fields
become `Option`, byte buffers become `List Char` (the source only ever
treats buffer contents as ASCII text), and filesystem or crypto effects
(hashing, reading a stored file) are passed in as explicit function
arguments.  JavaScript truthiness on optional strings is `strTruthy`.
-/

namespace Pository

/-- JavaScript truthiness of a possibly-absent string: `undefined` and the
empty string are falsy, everything else truthy. -/
def strTruthy : Option String → Bool
  | none => false
  | some s => s ≠ ""

/-- A `Label: value` line of an RFC-822 style document (the template
strings of `generatePackagesContent`). -/
def line (label value : String) : String :=
  label ++ ": " ++ value

/-- The stored metadata record of one package
(`PackageMetadata` in `src/services/storage.ts`). -/
structure PackageMetadata where
  name : String
  version : String
  architecture : String
  size : Nat
  sha256 : String
  mime : String
  uploadedAt : String
  uploaderKeyId : String
  repo : String
  distribution : String
  component : String
  description : Option String
  multiArch : Option String
  maintainer : Option String
  depends : Option String
  homepage : Option String
  «section» : Option String
  priority : Option String
  installedSize : Option Int
  preDepends : Option String
  suggests : Option String
  conflicts : Option String
  breaks : Option String
  replaces : Option String
  provides : Option String
deriving Repr, DecidableEq

/-- The apt pool path rendered into the `Filename:` field. -/
def aptFilename (pkg : PackageMetadata) : String :=
  let aptArch := if pkg.architecture = "all" then "all" else pkg.architecture
  "pool/" ++ pkg.distribution ++ "/" ++ pkg.component ++ "/" ++ aptArch ++ "/"
    ++ pkg.name ++ "_" ++ pkg.version ++ "_" ++ pkg.architecture ++ ".deb"

/-- Strip leading whitespace, as `line.replace(/^\s*$/, "")` minus the
anchor: the source uses `replace(/^\s*/, "")`. -/
def stripLeadingWs (s : String) : String :=
  String.mk (s.data.dropWhile Char.isWhitespace)

/-- Description normalisation of `generatePackagesContent`: the first line
is kept, every continuation line is re-indented with exactly one space. -/
def normalizeDescription (raw : String) : String :=
  match raw.splitOn "\n" with
  | [] => ""
  | first :: rest =>
      String.intercalate "\n" (first :: rest.map (fun l => " " ++ stripLeadingWs l))

/-- The description actually rendered: the stored one, or the synthetic
fallback `"<name> <version>"` when none is stored (`??` in the source). -/
def renderedDescription (pkg : PackageMetadata) : String :=
  normalizeDescription
    (match pkg.description with
     | some d => d
     | none => pkg.name ++ " " ++ pkg.version)

/-- The lines of one stanza of the apt `Packages` document, transcribed
from the body of the `for` loop of `generatePackagesContent`.
`md5Hex` stands for `crypto.createHash("md5")...digest("hex")`; `fileMd5`
is the MD5 of the stored `.deb` bytes, `""` when the file was unreadable
(the source initialises `md5 = ""` and leaves it on a read failure). -/
def stanzaLines (md5Hex : String → String) (fileMd5 : String)
    (pkg : PackageMetadata) : List String :=
  let description := renderedDescription pkg
  [line "Package" pkg.name,
   line "Version" pkg.version,
   line "Architecture" pkg.architecture]
  ++ (if strTruthy pkg.maintainer then [line "Maintainer" (pkg.maintainer.getD "")] else [])
  ++ (if strTruthy pkg.multiArch then [line "Multi-Arch" (pkg.multiArch.getD "")] else [])
  ++ (if strTruthy pkg.homepage then [line "Homepage" (pkg.homepage.getD "")] else [])
  ++ (if strTruthy pkg.«section» then [line "Section" (pkg.«section».getD "")] else [])
  ++ (if strTruthy pkg.priority then [line "Priority" (pkg.priority.getD "")] else [])
  ++ (if strTruthy pkg.preDepends then [line "Pre-Depends" (pkg.preDepends.getD "")] else [])
  ++ (if strTruthy pkg.depends then [line "Depends" (pkg.depends.getD "")] else [])
  ++ (if strTruthy pkg.suggests then [line "Suggests" (pkg.suggests.getD "")] else [])
  ++ (if strTruthy pkg.conflicts then [line "Conflicts" (pkg.conflicts.getD "")] else [])
  ++ (if strTruthy pkg.breaks then [line "Breaks" (pkg.breaks.getD "")] else [])
  ++ (if strTruthy pkg.replaces then [line "Replaces" (pkg.replaces.getD "")] else [])
  ++ (if strTruthy pkg.provides then [line "Provides" (pkg.provides.getD "")] else [])
  ++ (if pkg.installedSize.isSome then
        [line "Installed-Size" (toString (pkg.installedSize.getD 0))] else [])
  ++ [line "Filename" (aptFilename pkg),
      line "Size" (toString pkg.size),
      line "SHA256" pkg.sha256]
  ++ (if fileMd5 ≠ "" then [line "MD5sum" fileMd5] else [])
  ++ [line "Description" description,
      line "Description-md5" (md5Hex (description ++ "\n"))]

/-- The full `Packages` document of `generatePackagesContent`: stanzas
joined by blank lines, a trailing blank line when non-empty. -/
def generatePackagesContent (md5Hex : String → String)
    (fileMd5 : PackageMetadata → String) (packages : List PackageMetadata) : String :=
  let entries := packages.map
    (fun pkg => String.intercalate "\n" (stanzaLines md5Hex (fileMd5 pkg) pkg))
  if 0 < entries.length then String.intercalate "\n\n" entries ++ "\n\n" else ""

/-! ## Debian package validator (`src/services/debian-validator.ts`) -/

/-- JavaScript `String.prototype.startsWith`, computed structurally on the
character lists. -/
def jsStartsWith (s p : String) : Bool :=
  p.data.isPrefixOf s.data

/-- JavaScript `String.prototype.trim` on a character list. -/
def jsTrim (cs : List Char) : String :=
  String.mk (((cs.dropWhile Char.isWhitespace).reverse.dropWhile Char.isWhitespace).reverse)

/-- Value of a decimal digit prefix, `none` when there is no digit
(`parseInt` returns `NaN` then). -/
def digitsPrefixVal (cs : List Char) : Option Nat :=
  let ds := cs.takeWhile Char.isDigit
  if ds = [] then none
  else some (ds.foldl (fun n c => n * 10 + (c.toNat - 48)) 0)

/-- JavaScript `parseInt(s, 10)` on an already-trimmed string: an optional
sign followed by a digit prefix; `none` models `NaN`. -/
def jsParseInt (s : String) : Option Int :=
  match s.data with
  | '-' :: rest => (digitsPrefixVal rest).map (fun n => -(n : Int))
  | '+' :: rest => (digitsPrefixVal rest).map (fun n => (n : Int))
  | cs => (digitsPrefixVal cs).map (fun n => (n : Int))

/-- One parsed `ar` archive member (the `size` field of the source's entry
object is recoverable as `data.length` and is never read again). -/
structure ArEntry where
  name : String
  data : List Char
deriving Repr, DecidableEq

/-- The `ar` member scan loop of `validateDebianPackage`, fuel-indexed.
Each iteration consumes at least 60 characters, so the fuel
`rest.length + 1` used by `parseArEntries` can never run out.  The source
breaks out of the loop on a short remainder, an unparsable size, or an
oversized member, keeping the entries collected so far; a negative parsed
size (which would make the source walk backwards through the buffer) is
likewise modelled as the end of the scan. -/
def parseArEntriesGo : Nat → List Char → List ArEntry
  | 0, _ => []
  | fuel + 1, rest =>
    if rest.length < 60 then []
    else
      let header := rest.take 60
      let name := jsTrim (header.take 16)
      let sizeStr := jsTrim ((header.drop 48).take 10)
      match jsParseInt sizeStr with
      | none => []
      | some sz =>
        if sz < 0 then []
        else
          let size := sz.toNat
          let afterHeader := rest.drop 60
          if afterHeader.length < size then []
          else
            let data := afterHeader.take size
            let rest2 := afterHeader.drop size
            let rest3 := if size % 2 = 1 then rest2.drop 1 else rest2
            { name := name, data := data } :: parseArEntriesGo fuel rest3

/-- All `ar` members of the buffer after the 8-byte magic. -/
def parseArEntries (rest : List Char) : List ArEntry :=
  parseArEntriesGo (rest.length + 1) rest

/-- Result record of `validateDebianPackage`.  Control-field extraction is
not represented: in the source it runs after all the validity checks and
never changes `valid` or `error` (its failures are swallowed). -/
structure DebValidation where
  valid : Bool
  error : Option String
deriving Repr, DecidableEq

/-- The `ar` magic `"!<arch>\n"`. -/
def arMagic : List Char := "!<arch>\n".data

/-- Member predicate for `debian-binary` (the `===` disjunct of the source
is subsumed by `startsWith`). -/
def isDebianBinaryEntry (e : ArEntry) : Bool :=
  e.name = "debian-binary" ∨ jsStartsWith e.name "debian-binary"

/-- Member predicate for the control tarball. -/
def isControlEntry (e : ArEntry) : Bool :=
  jsStartsWith e.name "control.tar" ∨ e.name = "control.tar.gz" ∨
  e.name = "control.tar.xz" ∨ e.name = "control.tar.zst"

/-- Member predicate for the data tarball. -/
def isDataEntry (e : ArEntry) : Bool :=
  jsStartsWith e.name "data.tar" ∨ e.name = "data.tar.gz" ∨
  e.name = "data.tar.xz" ∨ e.name = "data.tar.zst" ∨ e.name = "data.tar.bz2"

/-- `validateDebianPackage`, transcribed check for check. -/
def validateDebianPackage (buffer : List Char) : DebValidation :=
  if buffer.length < 8 ∨ buffer.take 8 ≠ arMagic then
    ⟨false, some "Invalid ar archive: missing magic header"⟩
  else
    let entries := parseArEntries (buffer.drop 8)
    match entries.find? isDebianBinaryEntry with
    | none => ⟨false, some "Not a Debian package: missing debian-binary"⟩
    | some debianBinary =>
      let version := jsTrim debianBinary.data
      if ¬ jsStartsWith version "2." then
        ⟨false, some ("Unsupported Debian package format: " ++ version)⟩
      else if (entries.find? isControlEntry).isNone then
        ⟨false, some "Not a Debian package: missing control.tar"⟩
      else if (entries.find? isDataEntry).isNone then
        ⟨false, some "Not a Debian package: missing data.tar"⟩
      else
        ⟨true, none⟩

/-! ## Path sanitizer and filename pattern -/

/-- First replacement of `sanitizePath`: drop every `/` and `\`. -/
def removeSlashes (cs : List Char) : List Char :=
  cs.filter (fun c => ¬ (c = '/' ∨ c = '\\'))

/-- Second replacement of `sanitizePath`: global, left-to-right,
non-overlapping removal of `".."`. -/
def removeDotDot : List Char → List Char
  | [] => []
  | '.' :: '.' :: rest => removeDotDot rest
  | c :: rest => c :: removeDotDot rest

/-- `sanitizePath` of `src/services/debian-validator.ts`. -/
def sanitizePath (s : String) : String :=
  String.mk ((removeDotDot (removeSlashes s.data)).dropWhile (fun c => c = '.'))

/-- Every split `cs = pre ++ '_' :: post`, ordered by the position of the
underscore; used to model the lazy groups of the upload filename regex. -/
def underscoreSplits : List Char → List (List Char × List Char)
  | [] => []
  | c :: rest =>
    let tails := (underscoreSplits rest).map (fun p => (c :: p.1, p.2))
    if c = '_' then ([], rest) :: tails else tails

/-- The upload filename pattern `/^(.+?)_(.+?)_(.+?)\.deb$/`: the first two
groups are lazy, so the engine takes the leftmost viable pair of
underscores; the third group is pinned by the end anchor to everything up
to the final `".deb"` and must be non-empty. -/
def debFilenameMatch (filename : String) : Option (String × String × String) :=
  (underscoreSplits filename.data).findSome? (fun p =>
    if p.1 = [] then none
    else
      (underscoreSplits p.2).findSome? (fun q =>
        if q.1 = [] then none
        else if 5 ≤ q.2.length ∧ q.2.drop (q.2.length - 4) = ".deb".data then
          some (String.mk p.1, String.mk q.1, String.mk (q.2.take (q.2.length - 4)))
        else none))

/-! ## Upload identity resolution (`registerPackageRoutes`, POST handler) -/

/-- The three control fields the upload handler reads from
`validation.control` (`DebianControlData` is an open string map in the
source; only these keys are consulted here). -/
structure DebianControlFields where
  Package : Option String
  Version : Option String
  Architecture : Option String
deriving Repr, DecidableEq

/-- JavaScript `a || b` on an optional string: the value when truthy,
otherwise the default. -/
def jsOrStr (o : Option String) (d : String) : String :=
  if strTruthy o then o.getD "" else d

/-- Name/version/architecture resolution of the upload handler, from the
`validation.control` block through `sanitizePath(pkgArch || "all")`.
`architecture` is the multipart `architecture` form field (its declared
default is the empty string).  An `Except.error` is the message of the
400 response. -/
def resolveUploadIdentity (control : Option DebianControlFields)
    (architecture : String) (filename : String) :
    Except String (String × String × String) :=
  let pkgName := match control with | some c => jsOrStr c.Package "" | none => ""
  let pkgVersion := match control with | some c => jsOrStr c.Version "" | none => ""
  let pkgArch := match control with | some c => jsOrStr c.Architecture architecture | none => architecture
  let resolved :=
    if pkgName = "" ∨ pkgVersion = "" then
      match debFilenameMatch filename with
      | some (m1, m2, m3) =>
          (if pkgName = "" then m1 else pkgName,
           if pkgVersion = "" then m2 else pkgVersion,
           if pkgArch = "" then m3 else pkgArch)
      | none => (pkgName, pkgVersion, pkgArch)
    else (pkgName, pkgVersion, pkgArch)
  if resolved.1 = "" then Except.error "Could not determine package name"
  else if resolved.2.1 = "" then Except.error "Could not determine package version"
  else
    Except.ok (sanitizePath resolved.1, sanitizePath resolved.2.1,
      sanitizePath (if resolved.2.2 = "" then "all" else resolved.2.2))

/-! ## Configuration (`src/config.ts`) -/

/-- The configuration fields the verified components consult.  Server
plumbing (port, bind address, TLS, log and data paths, upload size cap,
CORS) is carried by the same object in the source but read only by the
HTTP layer, so it is not represented. -/
structure Config where
  allowedRepos : List String
  oidcAudience : Option String
  oidcAllowedOwners : Option (List String)
  oidcRequirePrivate : Option Bool
  oidcOverrides : Option (List (String × List String))
deriving Repr, DecidableEq

/-- `defaultConfig` of `src/config.ts`, restricted to the fields above. -/
def defaultConfig : Config :=
  { allowedRepos := ["default"],
    oidcAudience := some "pository",
    oidcAllowedOwners := some ["rsxdalv"],
    oidcRequirePrivate := some true,
    oidcOverrides := some [] }

/-! ## OIDC authorization policy (`src/services/oidc-scope.ts`) -/

/-- JavaScript `String.prototype.split` with a single-character separator,
accumulator-style. -/
def splitOnCharGo (sep : Char) : List Char → List Char → List String
  | [], acc => [String.mk acc.reverse]
  | c :: rest, acc =>
      if c = sep then String.mk acc.reverse :: splitOnCharGo sep rest []
      else splitOnCharGo sep rest (c :: acc)

/-- `repository.split("/")` and friends. -/
def splitOnChar (sep : Char) (s : String) : List String :=
  splitOnCharGo sep s.data []

/-- The claims `isOidcAllowed` reads. -/
structure GitHubOidcClaims where
  repository : String
  repository_visibility : String
  event_name : String
deriving Repr, DecidableEq

/-- Result record of `isOidcAllowed`. -/
structure OidcAuthzResult where
  allowed : Bool
  reason : Option String
deriving Repr, DecidableEq

/-- `isOidcAllowed`, transcribed branch for branch.  `oidcOverrides` is an
association list standing for the source's string-keyed record (keys
unique, first binding wins). -/
def isOidcAllowed (claims : GitHubOidcClaims) (packageName : String)
    (config : Config) : OidcAuthzResult :=
  if claims.event_name = "pull_request" then
    ⟨false, some "pull_request events are not permitted"⟩
  else
    let overrides := config.oidcOverrides.getD []
    match overrides.lookup claims.repository with
    | some overridePackages =>
      if overridePackages.contains "*" ∨ overridePackages.contains packageName then
        ⟨true, none⟩
      else
        ⟨false, some ("Repository \"" ++ claims.repository
          ++ "\" has an override but it does not include package \"" ++ packageName ++ "\"")⟩
    | none =>
      let parts := splitOnChar '/' claims.repository
      let owner := parts.headD ""
      let repoName : Option String := parts[1]?
      let allowedOwners := config.oidcAllowedOwners.getD ["rsxdalv"]
      if ¬ allowedOwners.contains owner then
        ⟨false, some ("Owner \"" ++ owner
          ++ "\" is not in oidcAllowedOwners; add an oidcOverride to permit this repository")⟩
      else
        let requirePrivate := config.oidcRequirePrivate.getD true
        if requirePrivate ∧ claims.repository_visibility ≠ "private" then
          ⟨false, some ("Visibility \"" ++ claims.repository_visibility
            ++ "\" is not \"private\" (oidcRequirePrivate is enabled); add an oidcOverride to allow public/internal repos")⟩
        else if repoName ≠ some packageName then
          ⟨false, some ("Default rule: GitHub repo name does not match package \""
            ++ packageName ++ "\"; add an oidcOverride to permit uploading a different package name")⟩
        else
          ⟨true, none⟩

/-! ## API keys (`src/services/api-keys.ts`) -/

inductive ApiKeyRole where
  | admin
  | write
  | read
deriving Repr, DecidableEq

/-- Optional per-key restriction to repos and/or distributions. -/
structure ApiKeyScope where
  repos : Option (List String)
  distributions : Option (List String)
deriving Repr, DecidableEq

/-- One stored API key record. -/
structure ApiKeyData where
  id : String
  hash : String
  role : ApiKeyRole
  scope : Option ApiKeyScope
  createdAt : String
  lastUsed : Option String
  description : Option String
deriving Repr, DecidableEq

/-- The `roleHierarchy` record literal of `hasPermission`. -/
def roleHierarchy : ApiKeyRole → Nat
  | .admin => 3
  | .write => 2
  | .read => 1

/-- `ApiKeyService.hasPermission`.  `repo`/`distribution` are `none` when a
call site omits the argument; a present-but-empty string is falsy in the
source's `repo && ...` guard, which `strTruthy` reproduces.  A stored
scope array is always truthy (even when empty), hence the `isSome`
tests. -/
def hasPermission (keyData : ApiKeyData) (requiredRole : ApiKeyRole)
    (repo : Option String) (distribution : Option String) : Bool :=
  if roleHierarchy keyData.role < roleHierarchy requiredRole then false
  else
    match keyData.scope with
    | some scope =>
      if strTruthy repo ∧ scope.repos.isSome
          ∧ ¬ (scope.repos.getD []).contains (repo.getD "") then false
      else if strTruthy distribution ∧ scope.distributions.isSome
          ∧ ¬ (scope.distributions.getD []).contains (distribution.getD "") then false
      else true
    | none => true

/-- The authentication pre-handler of `GET /api/v1/packages`: 401 without a
key, 403 without the `read` role, otherwise the request proceeds
(`none`).  Both optional arguments of `hasPermission` are omitted at this
call site. -/
def listPackagesGate (apiKey : Option ApiKeyData) : Option Nat :=
  match apiKey with
  | none => some 401
  | some key => if hasPermission key .read none none then none else some 403

/-! ## Storage engine state (`src/services/storage.ts`)

The persistent state visible to the index operations is, per repo
directory, the content of `<repo>/index.json`.  `loadIndex` and
`saveIndex` keep an in-memory cache write-through-consistent with that
file, so a single assoc list `repo ↦ packages` captures both.  The
self-heal backfill run by `loadIndex` only merges control fields
(`extractDebControl` returns no location fields), so it cannot change
which packages an index holds nor their location keys; it is not
represented. -/

/-- The six-component primary key of a stored artifact. -/
structure PackageLocation where
  repo : String
  distribution : String
  component : String
  architecture : String
  name : String
  version : String
deriving Repr, DecidableEq

/-- The control-file-derived subset of `PackageMetadata`
(`DebControlMeta` in the source). -/
structure DebControlMeta where
  description : Option String
  multiArch : Option String
  maintainer : Option String
  depends : Option String
  preDepends : Option String
  suggests : Option String
  conflicts : Option String
  breaks : Option String
  replaces : Option String
  provides : Option String
  homepage : Option String
  «section» : Option String
  priority : Option String
  installedSize : Option Int
deriving Repr, DecidableEq

/-- The metadata record `storePackage` builds for an upload.  `sha256Hex`
stands for the SHA-256 digest and `uploadedAt` for `new Date()`; `extra`
is the resolved control metadata (upload-time extraction or the
`dpkg-deb` fallback). -/
def mkMetadata (loc : PackageLocation) (bytes : List Nat)
    (sha256Hex : List Nat → String) (uploadedAt uploaderKeyId : String)
    (extra : DebControlMeta) : PackageMetadata :=
  { name := loc.name
    version := loc.version
    architecture := loc.architecture
    size := bytes.length
    sha256 := sha256Hex bytes
    mime := "application/vnd.debian.binary-package"
    uploadedAt := uploadedAt
    uploaderKeyId := uploaderKeyId
    repo := loc.repo
    distribution := loc.distribution
    component := loc.component
    description := extra.description
    multiArch := extra.multiArch
    maintainer := extra.maintainer
    depends := extra.depends
    homepage := extra.homepage
    «section» := extra.«section»
    priority := extra.priority
    installedSize := extra.installedSize
    preDepends := extra.preDepends
    suggests := extra.suggests
    conflicts := extra.conflicts
    breaks := extra.breaks
    replaces := extra.replaces
    provides := extra.provides }

/-- The per-repo indices: one binding per repo directory under
`dataRoot`. -/
structure StorageState where
  indices : List (String × List PackageMetadata)
deriving Repr, DecidableEq

/-- `loadIndex`: the stored index of a repo, empty when the repo has
none. -/
def loadIndex (st : StorageState) (repo : String) : List PackageMetadata :=
  (st.indices.lookup repo).getD []

/-- `listRepos`: the repo directories under `dataRoot`. -/
def listRepos (st : StorageState) : List String :=
  st.indices.map (fun p => p.1)

/-- The filter object accepted by `listPackages`; absent and empty-string
fields are both inert (`filters.x && ...`). -/
structure ListFilters where
  repo : Option String
  distribution : Option String
  component : Option String
  architecture : Option String
  name : Option String
  version : Option String
deriving Repr, DecidableEq

/-- One `if (filters.x && pkg.x !== filters.x) continue` guard: the entry
survives unless the filter is truthy and differs. -/
def passesFilter (filter : Option String) (value : String) : Bool :=
  ¬ (strTruthy filter ∧ value ≠ filter.getD "")

/-- `StorageService.listPackages`. -/
def listPackages (st : StorageState) (filters : ListFilters) : List PackageMetadata :=
  let repos := if strTruthy filters.repo then [filters.repo.getD ""] else listRepos st
  repos.flatMap (fun repo =>
    (loadIndex st repo).filter (fun pkg =>
      passesFilter filters.distribution pkg.distribution
      && passesFilter filters.component pkg.component
      && passesFilter filters.architecture pkg.architecture
      && passesFilter filters.name pkg.name
      && passesFilter filters.version pkg.version))

/-- The match predicate of the `findIndex` calls in `storePackage` and
`deletePackage`: five location fields — the repo coordinate is fixed
beforehand by loading that repo's own index. -/
def locationMatches (loc : PackageLocation) (p : PackageMetadata) : Bool :=
  p.name = loc.name ∧ p.version = loc.version ∧ p.distribution = loc.distribution
    ∧ p.component = loc.component ∧ p.architecture = loc.architecture

/-- The index update of `storePackage`: replace the first matching entry,
else append. -/
def upsertIndex (index : List PackageMetadata) (loc : PackageLocation)
    (metadata : PackageMetadata) : List PackageMetadata :=
  match index.findIdx? (locationMatches loc) with
  | some i => index.set i metadata
  | none => index ++ [metadata]

/-- Replace the first binding of a key in an assoc list, else append; the
combined effect of `saveIndex` (write `index.json`, refresh the cache). -/
def updateAssoc (l : List (String × List PackageMetadata)) (k : String)
    (v : List PackageMetadata) : List (String × List PackageMetadata) :=
  match l with
  | [] => [(k, v)]
  | (k', v') :: rest =>
      if k' = k then (k, v) :: rest else (k', v') :: updateAssoc rest k v

/-- The state transition of one `storePackage` call on the index layer:
load the repo index, upsert, save. -/
def storePackageIndex (st : StorageState) (loc : PackageLocation)
    (metadata : PackageMetadata) : StorageState :=
  ⟨updateAssoc st.indices loc.repo (upsertIndex (loadIndex st loc.repo) loc metadata)⟩

/-! ## The filesystem operations `storePackage` performs (claim about
write atomicity).  Reads (`existsSync`, `readFileSync`, the `dpkg-deb`
fallback) do not mutate the tree and are not traced. -/

/-- A mutating filesystem or cache operation. -/
inductive FsOp where
  | mkdirRecursive (path : String)
  | writeFile (path : String)
  | rename (src : String) (dst : String)
  | fsync (path : String)
  | setCache (repo : String)
deriving Repr, DecidableEq

def FsOp.isRename : FsOp → Bool
  | .rename _ _ => true
  | _ => false

def FsOp.isFsync : FsOp → Bool
  | .fsync _ => true
  | _ => false

/-- `path.join` over `/`. -/
def joinPath (parts : List String) : String :=
  String.intercalate "/" parts

/-- `getPackagePath` relative to `dataRoot`. -/
def packageDirPath (loc : PackageLocation) : String :=
  joinPath [loc.repo, loc.distribution, loc.component, loc.architecture, loc.name, loc.version]

/-- `getIndexPath` relative to `dataRoot`. -/
def indexPath (repo : String) : String :=
  joinPath [repo, "index.json"]

/-- The sequence of mutating operations of one `storePackage` call, in
source order: conditional `mkdirSync` of the package directory, the
`createWriteStream` pipeline to `package.deb`, `writeFileSync` of
`metadata.json`, then `saveIndex` (conditional `mkdirSync` of the repo
directory, `writeFileSync` of `index.json`, cache refresh).
`dirExists` and `indexDirExists` are the results of the two
`existsSync` probes. -/
def storePackageTrace (dirExists indexDirExists : Bool)
    (loc : PackageLocation) : List FsOp :=
  (if dirExists then [] else [FsOp.mkdirRecursive (packageDirPath loc)])
  ++ [FsOp.writeFile (joinPath [packageDirPath loc, "package.deb"]),
      FsOp.writeFile (joinPath [packageDirPath loc, "metadata.json"])]
  ++ (if indexDirExists then [] else [FsOp.mkdirRecursive loc.repo])
  ++ [FsOp.writeFile (indexPath loc.repo),
      FsOp.setCache loc.repo]

/-! ## Specification-side renderings, for the refinement claims.

The following definitions transcribe the *specification's* description of
the `Packages` stanza and of the upload name resolution, to be compared
with the source-derived definitions above. -/

/-- An optional stanza field per the spec: emitted exactly when the stored
value is non-empty. -/
def specOptionalField (label : String) (v : Option String) : Option String :=
  if strTruthy v then some (line label (v.getD "")) else none

/-- The spec's `Filename:` template
`pool/<distribution>/<component>/<architecture>/<name>_<version>_<architecture>.deb`. -/
def specFilename (pkg : PackageMetadata) : String :=
  "pool/" ++ pkg.distribution ++ "/" ++ pkg.component ++ "/" ++ pkg.architecture ++ "/"
    ++ pkg.name ++ "_" ++ pkg.version ++ "_" ++ pkg.architecture ++ ".deb"

/-- The stanza per the spec: the exact field order, optional fields
dropped, `Description` falling back to `"<name> <version>"`, and
`Description-md5` the digest of the description plus newline. -/
def specStanzaLines (md5Hex : String → String) (fileMd5 : String)
    (pkg : PackageMetadata) : List String :=
  let desc := renderedDescription pkg
  List.filterMap id
    [some (line "Package" pkg.name),
     some (line "Version" pkg.version),
     some (line "Architecture" pkg.architecture),
     specOptionalField "Maintainer" pkg.maintainer,
     specOptionalField "Multi-Arch" pkg.multiArch,
     specOptionalField "Homepage" pkg.homepage,
     specOptionalField "Section" pkg.«section»,
     specOptionalField "Priority" pkg.priority,
     specOptionalField "Pre-Depends" pkg.preDepends,
     specOptionalField "Depends" pkg.depends,
     specOptionalField "Suggests" pkg.suggests,
     specOptionalField "Conflicts" pkg.conflicts,
     specOptionalField "Breaks" pkg.breaks,
     specOptionalField "Replaces" pkg.replaces,
     specOptionalField "Provides" pkg.provides,
     (if pkg.installedSize.isSome then
        some (line "Installed-Size" (toString (pkg.installedSize.getD 0))) else none),
     some (line "Filename" (specFilename pkg)),
     some (line "Size" (toString pkg.size)),
     some (line "SHA256" pkg.sha256),
     (if fileMd5 ≠ "" then some (line "MD5sum" fileMd5) else none),
     some (line "Description" desc),
     some (line "Description-md5" (md5Hex (desc ++ "\n")))]

/-- The document per the spec: stanzas joined by blank lines, non-empty
documents ending with a trailing blank line. -/
def specPackagesContent (md5Hex : String → String)
    (fileMd5 : PackageMetadata → String) (packages : List PackageMetadata) : String :=
  match packages with
  | [] => ""
  | _ =>
      String.intercalate "\n\n" (packages.map
        (fun pkg => String.intercalate "\n" (specStanzaLines md5Hex (fileMd5 pkg) pkg)))
      ++ "\n\n"

/-- The upload identity resolution as the claim words it: each of name,
version and architecture is taken from the control fields, and failing
that from the filename pattern, with the architecture defaulting to
`all` when it remains empty and a 400 when name or version remains
missing.  (No dependence on the `architecture` form field, and no gating
of the filename fallback.) -/
def resolveUploadIdentityClaimed (control : Option DebianControlFields)
    (filename : String) : Except String (String × String × String) :=
  let m := debFilenameMatch filename
  let name := match control with
    | some c => jsOrStr c.Package (match m with | some (m1, _, _) => m1 | none => "")
    | none => match m with | some (m1, _, _) => m1 | none => ""
  let version := match control with
    | some c => jsOrStr c.Version (match m with | some (_, m2, _) => m2 | none => "")
    | none => match m with | some (_, m2, _) => m2 | none => ""
  let arch := match control with
    | some c => jsOrStr c.Architecture (match m with | some (_, _, m3) => m3 | none => "")
    | none => match m with | some (_, _, m3) => m3 | none => ""
  if name = "" then Except.error "Could not determine package name"
  else if version = "" then Except.error "Could not determine package version"
  else Except.ok (sanitizePath name, sanitizePath version,
    sanitizePath (if arch = "" then "all" else arch))

/-- The actual resolution order, written declaratively: name and version
from the control fields, then from the filename; the architecture from
the control field, then the `architecture` form field, then — only when
the filename fallback was attempted at all — the filename, and finally
`"all"`. -/
def resolveUploadIdentityAmended (control : Option DebianControlFields)
    (architecture filename : String) : Except String (String × String × String) :=
  let cName := match control with | some c => jsOrStr c.Package "" | none => ""
  let cVersion := match control with | some c => jsOrStr c.Version "" | none => ""
  let cArch := match control with | some c => jsOrStr c.Architecture "" | none => ""
  let formArch := if cArch = "" then architecture else cArch
  let m := if cName = "" ∨ cVersion = "" then debFilenameMatch filename else none
  let name := if cName = "" then (match m with | some (m1, _, _) => m1 | none => "") else cName
  let version := if cVersion = "" then (match m with | some (_, m2, _) => m2 | none => "") else cVersion
  let arch := if formArch = "" then (match m with | some (_, _, m3) => m3 | none => "") else formArch
  if name = "" then Except.error "Could not determine package name"
  else if version = "" then Except.error "Could not determine package version"
  else Except.ok (sanitizePath name, sanitizePath version,
    sanitizePath (if arch = "" then "all" else arch))

/-! ## Concrete sample data used by counterexamples and witnesses. -/

/-- A 60-byte `ar` member header: name (16), mtime (12), uid (6), gid (6),
mode (8), size (10), terminator (2). -/
def arHeader (name size : String) : String :=
  name ++ "0           " ++ "0     " ++ "0     " ++ "100644  " ++ size ++ "`\n"

/-- An `ar` archive whose only member is a `debian-binary` with content
`"1.0 "` — well-formed, but missing `control.tar*` and `data.tar*`. -/
def unsupportedVersionBuf : List Char :=
  ("!<arch>\n" ++ arHeader "debian-binary   " "4         " ++ "1.0 ").data

/-- A complete minimal `.deb`-shaped archive: `debian-binary` of `"2.0 "`,
plus `control.tar.gz` and `data.tar.xz` members. -/
def completeDebBuf : List Char :=
  ("!<arch>\n" ++ arHeader "debian-binary   " "4         " ++ "2.0 "
    ++ arHeader "control.tar.gz  " "2         " ++ "xy"
    ++ arHeader "data.tar.xz     " "2         " ++ "zw").data

/-- A metadata record whose location fields are all `"x"` except for the
given repo; the optional fields are absent. -/
def plainPkg (repo : String) : PackageMetadata :=
  { name := "x", version := "x", architecture := "x", size := 0, sha256 := "x",
    mime := "x", uploadedAt := "x", uploaderKeyId := "x", repo := repo,
    distribution := "x", component := "x",
    description := none, multiArch := none, maintainer := none, depends := none,
    homepage := none, «section» := none, priority := none, installedSize := none,
    preDepends := none, suggests := none, conflicts := none, breaks := none,
    replaces := none, provides := none }

/-- A store holding one index, for a repo outside the default allow-list,
with one package in it. -/
def evilState : StorageState := ⟨[("evil", [plainPkg "evil"])]⟩

/-- A store holding one package in the allow-listed `default` repo. -/
def okState : StorageState := ⟨[("default", [plainPkg "default"])]⟩

/-- The unrestricted filter object (every field omitted). -/
def noFilters : ListFilters := ⟨none, none, none, none, none, none⟩

/-- A sample upload location in the `default` repo. -/
def sampleLoc : PackageLocation :=
  ⟨"default", "stable", "main", "amd64", "hello", "1.0"⟩

/-- An empty control-metadata bundle. -/
def emptyExtra : DebControlMeta :=
  ⟨none, none, none, none, none, none, none, none, none, none, none, none, none, none⟩

/-- A read-role key scoped to one repo and one distribution. -/
def scopedReadKey : ApiKeyData :=
  { id := "k1", hash := "h", role := .read,
    scope := some ⟨some ["repo-a"], some ["stable"]⟩,
    createdAt := "2024-01-01", lastUsed := none, description := none }

/-! ## Helper lemmas -/

theorem mem_ite_singleton {α : Type _} {c : Prop} [Decidable c] {a x : α} :
    (a ∈ if c then [x] else []) ↔ c ∧ a = x := by
  by_cases h : c
  · simp [h]
  · simp [h]

/-- Two labelled lines with labels that differ within their first three
characters are distinct, whatever their values. -/
theorem line_ne_line {L M : String} (hL : 3 ≤ L.data.length) (hM : 3 ≤ M.data.length)
    (h : L.data.take 3 ≠ M.data.take 3) (v w : String) : line L v ≠ line M w := by
  intro heq
  apply h
  have hd : L.data ++ (": ".data ++ v.data) = M.data ++ (": ".data ++ w.data) := by
    have h2 := congrArg String.data heq
    simpa [line, String.data_append, List.append_assoc] using h2
  calc L.data.take 3
      = (L.data ++ (": ".data ++ v.data)).take 3 := (List.take_append_of_le_length hL).symm
    _ = (M.data ++ (": ".data ++ w.data)).take 3 := by rw [hd]
    _ = M.data.take 3 := List.take_append_of_le_length hM

/-! ## C9 — the role hierarchy of `hasPermission` -/

/-- C9: `hasPermission` respects the role hierarchy `admin`=3 > `write`=2 >
`read`=1: an unscoped admin key passes every required role (whatever the
optional arguments), a write key never passes an `admin` requirement, and
a read key never passes a `write` requirement. -/
theorem hasPermission_role_hierarchy (kid khash createdAt : String)
    (lastUsed description : Option String) (scope : Option ApiKeyScope)
    (requiredRole : ApiKeyRole) (repo distribution : Option String) :
    hasPermission ⟨kid, khash, .admin, none, createdAt, lastUsed, description⟩
      requiredRole repo distribution = true
    ∧ hasPermission ⟨kid, khash, .write, scope, createdAt, lastUsed, description⟩
      .admin repo distribution = false
    ∧ hasPermission ⟨kid, khash, .read, scope, createdAt, lastUsed, description⟩
      .write repo distribution = false := by
  refine ⟨?_, ?_, ?_⟩
  · cases requiredRole <;> simp [hasPermission, roleHierarchy]
  · simp [hasPermission, roleHierarchy]
  · simp [hasPermission, roleHierarchy]

/-! ## C10 — omitted optional arguments skip the scope checks -/

/-- C10: when both optional arguments of `hasPermission` are omitted, no
scope restriction is evaluated: any key of sufficient role passes,
whatever scope it carries; in particular the role-only read gate of
`GET /api/v1/packages` admits every read-capable key. -/
theorem hasPermission_unscoped_call (key : ApiKeyData) (requiredRole : ApiKeyRole)
    (h : roleHierarchy requiredRole ≤ roleHierarchy key.role) :
    hasPermission key requiredRole none none = true
    ∧ (requiredRole = .read → listPackagesGate (some key) = none) := by
  have hnot : ¬ (roleHierarchy key.role < roleHierarchy requiredRole) := Nat.not_lt.mpr h
  have hmain : hasPermission key requiredRole none none = true := by
    unfold hasPermission
    rw [if_neg hnot]
    cases key.scope with
    | none => rfl
    | some scope => simp [strTruthy]
  refine ⟨hmain, fun hr => ?_⟩
  subst hr
  simp [listPackagesGate, hmain]

/-- Witness for C10: a read key scoped to `repo-a`/`stable` still passes
the role-only read gate. -/
theorem hasPermission_unscoped_call_witness :
    hasPermission scopedReadKey .read none none = true
    ∧ listPackagesGate (some scopedReadKey) = none := by
  have h := hasPermission_unscoped_call scopedReadKey .read (by decide)
  exact ⟨h.1, h.2 rfl⟩

/-! ## C4 — the OIDC authorization decision -/

/-- C4: `isOidcAllowed` decides in order: `pull_request` events are denied
unconditionally; an override entry for the repository allows exactly when
it contains `*` or the target package name; otherwise the default rule
allows exactly when the owner is allow-listed, visibility is `private`
whenever `requirePrivate` is enabled, and the package name equals the
`<repo>` portion of `repository`.  Every denial carries a reason. -/
theorem isOidcAllowed_decision (claims : GitHubOidcClaims) (packageName : String)
    (config : Config) :
    ((isOidcAllowed claims packageName config).allowed = true ↔
      (claims.event_name ≠ "pull_request" ∧
        match (config.oidcOverrides.getD []).lookup claims.repository with
        | some entry => "*" ∈ entry ∨ packageName ∈ entry
        | none =>
            (splitOnChar '/' claims.repository).headD "" ∈ config.oidcAllowedOwners.getD ["rsxdalv"]
            ∧ (config.oidcRequirePrivate.getD true = true →
                claims.repository_visibility = "private")
            ∧ (splitOnChar '/' claims.repository)[1]? = some packageName))
    ∧ ((isOidcAllowed claims packageName config).allowed = false →
        (isOidcAllowed claims packageName config).reason.isSome = true) := by
  unfold isOidcAllowed
  by_cases hev : claims.event_name = "pull_request"
  · simp [hev]
  · rw [if_neg hev]
    cases hlk : (config.oidcOverrides.getD []).lookup claims.repository with
    | some entry =>
      by_cases hc : "*" ∈ entry ∨ packageName ∈ entry
      · simp [hlk, hc, hev]
      · simp [hlk, hc, hev]
    | none =>
      by_cases ho : (splitOnChar '/' claims.repository).head?.getD ""
          ∈ config.oidcAllowedOwners.getD ["rsxdalv"]
      · by_cases hp : config.oidcRequirePrivate.getD true = true
            ∧ ¬ claims.repository_visibility = "private"
        · constructor
          · simp [hlk, ho, hp, hev]
          · simp [hlk, ho, hp, hev]
        · by_cases hr : (splitOnChar '/' claims.repository)[1]? = some packageName
          · constructor
            · simp [hlk, ho, hp, hr, hev]
              intro hreq
              by_contra hvis
              exact hp ⟨hreq, hvis⟩
            · simp [hlk, ho, hp, hr, hev]
          · constructor
            · simp [hlk, ho, hp, hr, hev]
            · simp [hlk, ho, hp, hr, hev]
      · constructor
        · simp [hlk, ho, hev]
        · simp [hlk, ho, hev]

/-- Witness for C4: with the default configuration, a push from the
private repository `rsxdalv/foo` may upload the package `foo`. -/
theorem isOidcAllowed_decision_witness :
    (isOidcAllowed ⟨"rsxdalv/foo", "private", "push"⟩ "foo" defaultConfig).allowed = true :=
  (isOidcAllowed_decision ⟨"rsxdalv/foo", "private", "push"⟩ "foo" defaultConfig).1.mpr
    ⟨by decide, by decide, fun _ => rfl, by decide⟩

/-! ## C1 — no synthetic `Multi-Arch` or `Installed-Size` -/

/-- C1: a rendered stanza contains a `Multi-Arch:` line exactly when the
stored `multiArch` field is present and non-empty, and an
`Installed-Size:` line exactly when the stored `installedSize` field is
present; no synthetic value is ever emitted for either field. -/
theorem multiArch_installedSize_emission (md5Hex : String → String)
    (fileMd5 : String) (pkg : PackageMetadata) :
    ((∃ v, line "Multi-Arch" v ∈ stanzaLines md5Hex fileMd5 pkg)
      ↔ strTruthy pkg.multiArch = true)
    ∧ ((∃ v, line "Installed-Size" v ∈ stanzaLines md5Hex fileMd5 pkg)
      ↔ pkg.installedSize.isSome = true) := by
  constructor
  · constructor
    · rintro ⟨v, hv⟩
      by_contra hma
      simp only [stanzaLines, List.mem_append, List.mem_cons, List.mem_singleton,
        mem_ite_singleton, List.not_mem_nil, or_false, false_or, or_assoc] at hv
      rcases hv with h|h|h|h|h|h|h|h|h|h|h|h|h|h|h|h|h|h|h|h|h|h <;>
        first
        | exact line_ne_line (by decide) (by decide) (by decide) _ _ h
        | exact line_ne_line (by decide) (by decide) (by decide) _ _ h.2
        | exact hma h.1
    · intro h
      exact ⟨pkg.multiArch.getD "", by simp [stanzaLines, mem_ite_singleton, h]⟩
  · constructor
    · rintro ⟨v, hv⟩
      by_contra his
      simp only [stanzaLines, List.mem_append, List.mem_cons, List.mem_singleton,
        mem_ite_singleton, List.not_mem_nil, or_false, false_or, or_assoc] at hv
      rcases hv with h|h|h|h|h|h|h|h|h|h|h|h|h|h|h|h|h|h|h|h|h|h <;>
        first
        | exact line_ne_line (by decide) (by decide) (by decide) _ _ h
        | exact line_ne_line (by decide) (by decide) (by decide) _ _ h.2
        | exact his h.1
    · intro h
      exact ⟨toString (pkg.installedSize.getD 0),
        by simp [stanzaLines, mem_ite_singleton, h]⟩

/-! ## C5 — the `Packages` document matches the spec's stanza layout -/

theorem filterMap_id_cons {α : Type _} (o : Option α) (l : List (Option α)) :
    List.filterMap id (o :: l) = o.toList ++ List.filterMap id l := by
  cases o <;> simp

theorem ite_some_toList {α : Type _} {c : Prop} [Decidable c] (a : α) :
    (if c then some a else none).toList = if c then [a] else [] := by
  by_cases h : c <;> simp [h]

/-- The source's `aptArch` ternary is the identity, so the rendered
`Filename:` equals the spec's template. -/
theorem aptFilename_eq_specFilename (pkg : PackageMetadata) :
    aptFilename pkg = specFilename pkg := by
  unfold aptFilename specFilename
  by_cases h : pkg.architecture = "all"
  · simp [h]
  · simp [h]

theorem stanzaLines_eq_spec (md5Hex : String → String) (fileMd5 : String)
    (pkg : PackageMetadata) :
    stanzaLines md5Hex fileMd5 pkg = specStanzaLines md5Hex fileMd5 pkg := by
  unfold stanzaLines specStanzaLines specOptionalField
  simp only [filterMap_id_cons, ite_some_toList, Option.toList_some,
    aptFilename_eq_specFilename, List.filterMap_nil, List.append_nil,
    List.cons_append, List.nil_append, List.append_assoc, List.singleton_append]

/-- C5: the rendered `Packages` document is exactly one stanza per record
in the spec's field order — `Package`, `Version`, `Architecture`, the
optional fields `Maintainer` through `Installed-Size` (omitted when
empty), `Filename`, `Size`, `SHA256`, optional `MD5sum`, `Description`
with its `"<name> <version>"` fallback, `Description-md5` — with stanzas
joined by blank lines, a trailing blank line on non-empty documents, and
continuation lines of descriptions normalised to one leading space. -/
theorem generatePackagesContent_matches_spec (md5Hex : String → String)
    (fileMd5 : PackageMetadata → String) (packages : List PackageMetadata) :
    generatePackagesContent md5Hex fileMd5 packages
      = specPackagesContent md5Hex fileMd5 packages := by
  unfold generatePackagesContent specPackagesContent
  cases packages with
  | nil => simp
  | cons p ps => simp [stanzaLines_eq_spec]

/-! ## C6 — idempotent overwrite of the per-repo index -/

theorem upsertIndex_nil (loc : PackageLocation) (m : PackageMetadata) :
    upsertIndex [] loc m = [m] := by
  simp [upsertIndex]

theorem upsertIndex_cons (a : PackageMetadata) (tl : List PackageMetadata)
    (loc : PackageLocation) (m : PackageMetadata) :
    upsertIndex (a :: tl) loc m =
      if locationMatches loc a then m :: tl else a :: upsertIndex tl loc m := by
  unfold upsertIndex
  by_cases ha : locationMatches loc a
  · simp [List.findIdx?_cons, ha]
  · rw [if_neg (by simp [ha])]
    rw [List.findIdx?_cons, if_neg (by simp [ha]), List.findIdx?_succ]
    cases hf : List.findIdx? (locationMatches loc) tl with
    | none => simp
    | some i => simp

/-- After an upsert of a matching record into an index holding at most one
match, the matching entries are exactly the new record. -/
theorem filter_upsertIndex (loc : PackageLocation) (m : PackageMetadata)
    (hm : locationMatches loc m = true) :
    ∀ idx : List PackageMetadata, idx.countP (locationMatches loc) ≤ 1 →
      (upsertIndex idx loc m).filter (locationMatches loc) = [m] := by
  intro idx
  induction idx with
  | nil =>
    intro _
    simp [upsertIndex_nil, List.filter_cons, hm]
  | cons a tl ih =>
    intro h
    rw [upsertIndex_cons]
    by_cases ha : locationMatches loc a
    · rw [if_pos ha]
      have htl : tl.countP (locationMatches loc) = 0 := by
        rw [List.countP_cons, if_pos ha] at h
        omega
      have hnil : tl.filter (locationMatches loc) = [] := by
        rw [List.filter_eq_nil_iff]
        intro x hx
        exact List.countP_eq_zero.mp htl x hx
      simp [List.filter_cons, hm, hnil]
    · rw [if_neg ha]
      have h' : tl.countP (locationMatches loc) ≤ 1 := by
        rw [List.countP_cons, if_neg ha] at h
        omega
      simp [List.filter_cons, ha, ih h']

theorem lookup_updateAssoc (l : List (String × List PackageMetadata))
    (k : String) (v : List PackageMetadata) :
    (updateAssoc l k v).lookup k = some v := by
  induction l with
  | nil => simp [updateAssoc, List.lookup]
  | cons a rest ih =>
    obtain ⟨k', v'⟩ := a
    unfold updateAssoc
    by_cases hk : k' = k
    · simp [hk, List.lookup]
    · simp only [if_neg hk, List.lookup]
      have : (k == k') = false := by
        simp [Ne.symm hk]
      simp [this, ih]

theorem loadIndex_storePackageIndex (st : StorageState) (loc : PackageLocation)
    (m : PackageMetadata) :
    loadIndex (storePackageIndex st loc m) loc.repo
      = upsertIndex (loadIndex st loc.repo) loc m := by
  unfold loadIndex storePackageIndex
  rw [lookup_updateAssoc]
  rfl

theorem locationMatches_mkMetadata (loc : PackageLocation) (bytes : List Nat)
    (sha256Hex : List Nat → String) (uploadedAt uploaderKeyId : String)
    (extra : DebControlMeta) :
    locationMatches loc (mkMetadata loc bytes sha256Hex uploadedAt uploaderKeyId extra)
      = true := by
  simp [locationMatches, mkMetadata]

/-- C6: two consecutive `storePackage` calls with the same location — the
second replacing what the first wrote — leave exactly one index entry for
that location, whose `sha256` is the digest of the last upload's bytes.
The hypothesis is the per-repo index invariant (at most one entry per
location); `repo` is the coordinate fixed by choosing that repo's own
index, and the remaining five are compared by the upsert. -/
theorem storePackage_overwrite_idempotent (st : StorageState)
    (loc : PackageLocation) (bytes1 bytes2 : List Nat)
    (sha256Hex : List Nat → String) (t1 t2 id1 id2 : String)
    (e1 e2 : DebControlMeta)
    (h : (loadIndex st loc.repo).countP (locationMatches loc) ≤ 1) :
    (loadIndex
        (storePackageIndex
          (storePackageIndex st loc (mkMetadata loc bytes1 sha256Hex t1 id1 e1))
          loc (mkMetadata loc bytes2 sha256Hex t2 id2 e2))
        loc.repo).filter (locationMatches loc)
      = [mkMetadata loc bytes2 sha256Hex t2 id2 e2]
    ∧ (mkMetadata loc bytes2 sha256Hex t2 id2 e2).sha256 = sha256Hex bytes2 := by
  have hm1 := locationMatches_mkMetadata loc bytes1 sha256Hex t1 id1 e1
  have hm2 := locationMatches_mkMetadata loc bytes2 sha256Hex t2 id2 e2
  have h1 : loadIndex (storePackageIndex st loc (mkMetadata loc bytes1 sha256Hex t1 id1 e1)) loc.repo
      = upsertIndex (loadIndex st loc.repo) loc (mkMetadata loc bytes1 sha256Hex t1 id1 e1) :=
    loadIndex_storePackageIndex st loc _
  have hc1 : (upsertIndex (loadIndex st loc.repo) loc
      (mkMetadata loc bytes1 sha256Hex t1 id1 e1)).countP (locationMatches loc) = 1 := by
    rw [List.countP_eq_length_filter, filter_upsertIndex loc _ hm1 _ h]
    rfl
  constructor
  · rw [loadIndex_storePackageIndex, h1]
    exact filter_upsertIndex loc _ hm2 _ (by rw [hc1])
  · rfl

/-- Witness for C6: storing twice at `sampleLoc` into an empty store, with
different bytes, leaves exactly the second record in the index. -/
theorem storePackage_overwrite_idempotent_witness :
    (loadIndex
        (storePackageIndex
          (storePackageIndex ⟨[]⟩ sampleLoc
            (mkMetadata sampleLoc [0] (fun b => toString b.length) "t1" "k1" emptyExtra))
          sampleLoc
          (mkMetadata sampleLoc [0, 1] (fun b => toString b.length) "t2" "k1" emptyExtra))
        sampleLoc.repo).filter (locationMatches sampleLoc)
      = [mkMetadata sampleLoc [0, 1] (fun b => toString b.length) "t2" "k1" emptyExtra]
    ∧ (mkMetadata sampleLoc [0, 1] (fun b => toString b.length) "t2" "k1" emptyExtra).sha256
      = "2" :=
  storePackage_overwrite_idempotent ⟨[]⟩ sampleLoc [0] [0, 1]
    (fun b => toString b.length) "t1" "t2" "k1" "k1" emptyExtra emptyExtra (by decide)

/-! ## C3 — the allow-list and `listPackages` -/

/-- Counterexample for C3: `listPackages` applies no allow-list filtering,
so on a store whose index holds a package of the repo `evil` — outside
the default allow-list `["default"]` — that package is returned. -/
theorem listPackages_allowlist_cex :
    ¬ (∀ (st : StorageState) (filters : ListFilters) (p : PackageMetadata),
        p ∈ listPackages st filters → defaultConfig.allowedRepos ≠ [] →
        p.repo ∈ defaultConfig.allowedRepos) := by
  intro hclaim
  have h := hclaim evilState noFilters (plainPkg "evil") (by decide) (by decide)
  revert h
  decide

theorem mem_of_lookup_eq_some {l : List (String × List PackageMetadata)}
    {k : String} {v : List PackageMetadata} (h : l.lookup k = some v) : (k, v) ∈ l := by
  induction l with
  | nil => simp [List.lookup] at h
  | cons a rest ih =>
    obtain ⟨k', v'⟩ := a
    rw [List.lookup_cons] at h
    cases hk : k == k' with
    | true =>
      rw [hk] at h
      obtain rfl : v' = v := by simpa using h
      obtain rfl : k = k' := by simpa using hk
      exact List.mem_cons_self _ _
    | false =>
      rw [hk] at h
      exact List.mem_cons_of_mem _ (ih h)

/-- C3 (amended): `listPackages` returns only records drawn from the
store's indices, so whenever every indexed record's repo lies in the
(non-empty) allow-list — which the upload route enforces at store time —
so does every record `listPackages` returns. -/
theorem listPackages_allowlist_amended (st : StorageState) (filters : ListFilters)
    (allowedRepos : List String) (p : PackageMetadata)
    (hstore : ∀ entry ∈ st.indices, ∀ q ∈ entry.2,
      allowedRepos ≠ [] → q.repo ∈ allowedRepos)
    (hp : p ∈ listPackages st filters) (hne : allowedRepos ≠ []) :
    p.repo ∈ allowedRepos := by
  unfold listPackages at hp
  rw [List.mem_flatMap] at hp
  obtain ⟨r, _, hpr⟩ := hp
  have hpl : p ∈ loadIndex st r := (List.mem_filter.mp hpr).1
  unfold loadIndex at hpl
  cases hlk : st.indices.lookup r with
  | none => rw [hlk] at hpl; simp at hpl
  | some idx =>
    rw [hlk] at hpl
    exact hstore (r, idx) (mem_of_lookup_eq_some hlk) p hpl hne

/-- Witness for C3 (amended): on a store whose only record lives in the
allow-listed `default` repo, a returned record's repo is allow-listed. -/
theorem listPackages_allowlist_amended_witness :
    (plainPkg "default").repo ∈ ["default"] :=
  listPackages_allowlist_amended okState noFilters ["default"] (plainPkg "default")
    (by decide) (by decide) (by decide)

/-! ## C2 — `storePackage` write atomicity -/

/-- Counterexample for C2: a concrete `storePackage` run performs no
rename and no fsync anywhere — `package.deb` is written directly at its
final path and the cache refresh follows a plain in-place `index.json`
write — so no write-to-a-temporary-sibling-then-rename step exists. -/
theorem storePackage_trace_cex :
    ((storePackageTrace false false sampleLoc).all
      (fun op => !op.isRename && !op.isFsync)) = true
    ∧ FsOp.writeFile (joinPath [packageDirPath sampleLoc, "package.deb"])
        ∈ storePackageTrace false false sampleLoc
    ∧ FsOp.setCache sampleLoc.repo ∈ storePackageTrace false false sampleLoc := by
  decide

/-- C2 (amended): every `storePackage` run writes `package.deb`,
`metadata.json` and `index.json` directly in place — its trace holds no
rename and no fsync — and the in-memory cache is refreshed as the final
step, right after the in-place `index.json` write. -/
theorem storePackage_trace_amended (dirExists indexDirExists : Bool)
    (loc : PackageLocation) :
    ((storePackageTrace dirExists indexDirExists loc).all
      (fun op => !op.isRename && !op.isFsync)) = true
    ∧ (∃ pre, storePackageTrace dirExists indexDirExists loc
        = pre ++ [FsOp.writeFile (indexPath loc.repo), FsOp.setCache loc.repo])
    ∧ FsOp.writeFile (joinPath [packageDirPath loc, "package.deb"])
        ∈ storePackageTrace dirExists indexDirExists loc := by
  refine ⟨?_, ?_, ?_⟩
  · cases dirExists <;> cases indexDirExists <;>
      simp [storePackageTrace, FsOp.isRename, FsOp.isFsync]
  · cases dirExists <;> cases indexDirExists <;>
      [exact ⟨[FsOp.mkdirRecursive (packageDirPath loc),
        FsOp.writeFile (joinPath [packageDirPath loc, "package.deb"]),
        FsOp.writeFile (joinPath [packageDirPath loc, "metadata.json"]),
        FsOp.mkdirRecursive loc.repo], by simp [storePackageTrace]⟩;
       exact ⟨[FsOp.mkdirRecursive (packageDirPath loc),
        FsOp.writeFile (joinPath [packageDirPath loc, "package.deb"]),
        FsOp.writeFile (joinPath [packageDirPath loc, "metadata.json"])],
        by simp [storePackageTrace]⟩;
       exact ⟨[FsOp.writeFile (joinPath [packageDirPath loc, "package.deb"]),
        FsOp.writeFile (joinPath [packageDirPath loc, "metadata.json"]),
        FsOp.mkdirRecursive loc.repo], by simp [storePackageTrace]⟩;
       exact ⟨[FsOp.writeFile (joinPath [packageDirPath loc, "package.deb"]),
        FsOp.writeFile (joinPath [packageDirPath loc, "metadata.json"])],
        by simp [storePackageTrace]⟩]
  · cases dirExists <;> cases indexDirExists <;> simp [storePackageTrace]

/-! ## C7 — the validator's error classification -/

/-- Counterexample for C7: a well-formed `ar` archive whose sole member is
a `debian-binary` of version `1.0` is missing `control.tar*` (and
`data.tar*`), yet it is classified `Unsupported Debian package format`,
not the `Not a Debian package` the claim assigns to archives missing
those members: the version check runs first. -/
theorem validateDebianPackage_cex :
    ¬ (∀ buffer : List Char,
        8 ≤ buffer.length → buffer.take 8 = arMagic →
        (parseArEntries (buffer.drop 8)).find? isControlEntry = none →
        jsStartsWith ((validateDebianPackage buffer).error.getD "")
          "Not a Debian package" = true) := by
  intro hclaim
  have h := hclaim unsupportedVersionBuf (by decide) (by decide) (by decide)
  revert h
  decide

/-- C7 (amended): the classification in the source's check order — missing
magic (buffers shorter than 8 bytes included) → `Invalid ar archive`;
then, over the members scanned until a header fails to parse: no
`debian-binary` → `Not a Debian package`; a `debian-binary` not starting
`2.` → `Unsupported Debian package format`; then missing `control.tar*`,
then missing `data.tar*` → `Not a Debian package`; otherwise valid. -/
theorem validateDebianPackage_classification (buffer : List Char) :
    (buffer.length < 8 ∨ buffer.take 8 ≠ arMagic →
      validateDebianPackage buffer
        = ⟨false, some "Invalid ar archive: missing magic header"⟩)
    ∧ (¬ (buffer.length < 8 ∨ buffer.take 8 ≠ arMagic) →
        ((parseArEntries (buffer.drop 8)).find? isDebianBinaryEntry = none →
          validateDebianPackage buffer
            = ⟨false, some "Not a Debian package: missing debian-binary"⟩)
        ∧ (∀ e, (parseArEntries (buffer.drop 8)).find? isDebianBinaryEntry = some e →
            (jsStartsWith (jsTrim e.data) "2." = false →
              validateDebianPackage buffer
                = ⟨false, some ("Unsupported Debian package format: " ++ jsTrim e.data)⟩)
            ∧ (jsStartsWith (jsTrim e.data) "2." = true →
                ((parseArEntries (buffer.drop 8)).find? isControlEntry = none →
                  validateDebianPackage buffer
                    = ⟨false, some "Not a Debian package: missing control.tar"⟩)
                ∧ ((parseArEntries (buffer.drop 8)).find? isControlEntry ≠ none →
                    (parseArEntries (buffer.drop 8)).find? isDataEntry = none →
                    validateDebianPackage buffer
                      = ⟨false, some "Not a Debian package: missing data.tar"⟩)
                ∧ ((parseArEntries (buffer.drop 8)).find? isControlEntry ≠ none →
                    (parseArEntries (buffer.drop 8)).find? isDataEntry ≠ none →
                    validateDebianPackage buffer = ⟨true, none⟩)))) := by
  unfold validateDebianPackage
  by_cases h : buffer.length < 8 ∨ buffer.take 8 ≠ arMagic
  · rw [if_pos h]
    exact ⟨fun _ => rfl, fun h' => absurd h h'⟩
  · rw [if_neg h]
    dsimp only
    refine ⟨fun h' => absurd h' h, fun _ => ?_⟩
    cases hfd : (parseArEntries (buffer.drop 8)).find? isDebianBinaryEntry with
    | none =>
      exact ⟨fun _ => rfl, fun e he => Option.noConfusion he⟩
    | some d =>
      refine ⟨fun hnone => Option.noConfusion hnone, fun e he => ?_⟩
      obtain rfl : d = e := Option.some_inj.mp he
      dsimp only
      constructor
      · intro hv
        rw [if_pos (by simp [hv])]
      · intro hv
        rw [if_neg (by simp [hv])]
        refine ⟨fun hc => ?_, fun hc hd => ?_, fun hc hd => ?_⟩
        · rw [hc]
          rfl
        · cases hco : (parseArEntries (buffer.drop 8)).find? isControlEntry with
          | none => exact absurd hco hc
          | some cEntry =>
            rw [hd]
            rfl
        · cases hco : (parseArEntries (buffer.drop 8)).find? isControlEntry with
          | none => exact absurd hco hc
          | some cEntry =>
            cases hda : (parseArEntries (buffer.drop 8)).find? isDataEntry with
            | none => exact absurd hda hd
            | some dEntry => rfl

/-- Witness for C7 (amended): a 1-byte file is an invalid `ar` archive,
and a complete minimal deb (debian-binary `2.0`, `control.tar.gz`,
`data.tar.xz`) is valid. -/
theorem validateDebianPackage_classification_witness :
    validateDebianPackage ['a']
      = ⟨false, some "Invalid ar archive: missing magic header"⟩
    ∧ validateDebianPackage completeDebBuf = ⟨true, none⟩ := by
  constructor
  · exact (validateDebianPackage_classification ['a']).1 (by decide)
  · exact ((((validateDebianPackage_classification completeDebBuf).2 (by decide)).2
      ⟨"debian-binary", "2.0 ".data⟩ (by decide)).2 (by decide)).2.2
      (by decide) (by decide)

/-! ## C8 — upload name/version/architecture resolution -/

/-- Counterexample for C8: with no control fields, the form field
`architecture=i386` and the filename `a_1_amd64.deb`, the handler
resolves the architecture to `i386` — the form field, which the claim's
control-then-filename order does not admit: under that order the
architecture would come from the filename, `amd64`. -/
theorem resolveUploadIdentity_cex :
    resolveUploadIdentity none "i386" "a_1_amd64.deb" = Except.ok ("a", "1", "i386")
    ∧ resolveUploadIdentityClaimed none "a_1_amd64.deb" = Except.ok ("a", "1", "amd64")
    ∧ resolveUploadIdentity none "i386" "a_1_amd64.deb"
        ≠ resolveUploadIdentityClaimed none "a_1_amd64.deb" := by
  have h1 : resolveUploadIdentity none "i386" "a_1_amd64.deb"
      = Except.ok ("a", "1", "i386") := rfl
  have h2 : resolveUploadIdentityClaimed none "a_1_amd64.deb"
      = Except.ok ("a", "1", "amd64") := rfl
  refine ⟨h1, h2, ?_⟩
  rw [h1, h2]
  intro hcontra
  have h3 := Except.ok.inj hcontra
  simp at h3

theorem getD_ne_empty_of_strTruthy {o : Option String} (h : strTruthy o = true) :
    o.getD "" ≠ "" := by
  cases o with
  | none => simp [strTruthy] at h
  | some s => simpa [strTruthy] using h

theorem ite_empty_self (s : String) : (if s = "" then "" else s) = s := by
  by_cases h : s = "" <;> simp [h]

/-- C8 (amended): the resolution equals the declarative order — name and
version from the control fields then the filename, the filename being
consulted only when name or version is missing; the architecture from the
control field, then the `architecture` form field, then (only inside that
same fallback) the filename, and finally `"all"`. -/
theorem resolveUploadIdentity_amended_eq (control : Option DebianControlFields)
    (architecture filename : String) :
    resolveUploadIdentity control architecture filename
      = resolveUploadIdentityAmended control architecture filename := by
  unfold resolveUploadIdentity resolveUploadIdentityAmended
  cases control with
  | none =>
    dsimp only
    cases hm : debFilenameMatch filename with
    | none => simp [ite_empty_self]
    | some t =>
      obtain ⟨m1, m2, m3⟩ := t
      simp [ite_empty_self]
  | some c =>
    dsimp only
    by_cases hn : strTruthy c.Package = true
    · by_cases hv : strTruthy c.Version = true
      · have hn' := getD_ne_empty_of_strTruthy hn
        have hv' := getD_ne_empty_of_strTruthy hv
        by_cases ha : strTruthy c.Architecture = true
        · have ha' := getD_ne_empty_of_strTruthy ha
          simp [jsOrStr, hn, hv, ha, hn', hv', ha']
        · simp [jsOrStr, hn, hv, ha, hn', hv', ite_empty_self]
      · have hn' := getD_ne_empty_of_strTruthy hn
        by_cases ha : strTruthy c.Architecture = true
        · have ha' := getD_ne_empty_of_strTruthy ha
          cases hm : debFilenameMatch filename with
          | none => simp [jsOrStr, hn, hv, ha, hn', ha', hm, ite_empty_self]
          | some t =>
            obtain ⟨m1, m2, m3⟩ := t
            simp [jsOrStr, hn, hv, ha, hn', ha', hm, ite_empty_self]
        · cases hm : debFilenameMatch filename with
          | none => simp [jsOrStr, hn, hv, ha, hn', hm, ite_empty_self]
          | some t =>
            obtain ⟨m1, m2, m3⟩ := t
            simp [jsOrStr, hn, hv, ha, hn', hm, ite_empty_self]
    · by_cases ha : strTruthy c.Architecture = true
      · have ha' := getD_ne_empty_of_strTruthy ha
        cases hm : debFilenameMatch filename with
        | none => simp [jsOrStr, hn, ha, ha', hm, ite_empty_self]
        | some t =>
          obtain ⟨m1, m2, m3⟩ := t
          simp [jsOrStr, hn, ha, ha', hm, ite_empty_self]
      · cases hm : debFilenameMatch filename with
        | none => simp [jsOrStr, hn, ha, hm, ite_empty_self]
        | some t =>
          obtain ⟨m1, m2, m3⟩ := t
          simp [jsOrStr, hn, ha, hm, ite_empty_self]

end Pository
